import Mathlib

/-!
Shallow embedding of the relational clustering / temporal-correlation engine
(`cdzproject`): the relationship store (`db/one_to_many_table.py`,
`db/basic_table.py`, `db/database.py`), the prototype-node and grouping
lifecycle (`modules/cortex/node.py`, `modules/cortex/cluster.py`,
`modules/cortex/node_manager.py`) and the correlation engine
(`modules/cdz/cdz.py`, `modules/cdz/cluster_correlation.py`).

Modelling conventions:
- Python floats are modelled as rationals (`ℚ`); timesteps as `ℕ`.
- Feature vectors (numpy arrays) are modelled one-dimensionally as `ℚ`;
  the Euclidean norm is modelled by its square, which has the same argmin.
- A Python object is identified by its unique `name`; object stores are
  insertion-ordered association lists `List (Name × _)`, mirroring Python
  dict insertion-order semantics.
- In-place mutation with exceptions is modelled by `MRes σ = σ × Option Err`:
  the state at completion (or at the point the exception was raised)
  together with the raised error, if any.
-/

namespace Cdzp

/- Batteries marks the rational-number operations `@[irreducible]`; the
kernel ignores reducibility, and concrete runs of the model are evaluated
with `decide`, so they are restored to their normal reducibility here. -/
attribute [local semireducible] Rat.add Rat.mul Rat.sub Rat.inv

abbrev Name := String

/-- Python exception kinds raised by the modelled code. -/
inductive Err where
  | itemAlreadyInTable
  | alreadyRelated
  | keyError
  | valueError
  | typeError
  | assertionFailed
  | indexError
  | normalizeNonpositive
  | attributeError
  deriving DecidableEq, Repr

/-- Result of a mutating operation on state `σ`: the state at completion (or
at the point the exception was raised) together with the raised error. -/
abbrev MRes (σ : Type) := σ × Option Err

def mok {σ : Type} (s : σ) : MRes σ := (s, none)

def mraise {σ : Type} (s : σ) (e : Err) : MRes σ := (s, some e)

/-- Sequencing of mutating operations: an exception propagates, carrying the
partially mutated state with it. -/
def mbind {σ : Type} (r : MRes σ) (f : σ → MRes σ) : MRes σ :=
  match r with
  | (s, none) => f s
  | (s, some e) => (s, some e)

/-- Association-list lookup (Python `dict.get` / `dict[key]`). -/
def alook {β : Type} : List (Name × β) → Name → Option β
  | [], _ => none
  | (k, v) :: rest, n => if k = n then some v else alook rest n

/-- Replace the value stored at an existing key (in-place field mutation). -/
def aset {β : Type} (l : List (Name × β)) (n : Name) (v : β) : List (Name × β) :=
  l.map (fun q => if q.1 = n then (n, v) else q)

/-- Python `del d[key]` (the caller checks presence where Python would raise). -/
def adel {β : Type} (l : List (Name × β)) (n : Name) : List (Name × β) :=
  l.filter (fun q => q.1 ≠ n)

/-- Python `d[key] = v`: overwrite if present, else append (insertion order). -/
def bset {β : Type} (l : List (Name × β)) (n : Name) (v : β) : List (Name × β) :=
  match alook l n with
  | some _ => aset l n v
  | none => l ++ [(n, v)]

/-! ## Configuration constants (`config.py`) -/

def NODE_TO_CLUSTER_LEARNING_RATE : ℚ := 5/100
def CLUSTER_NODE_LEARNING_RATE : ℚ := 2/100
def CE_LEARNING_RATE : ℚ := 2/100
def CE_CORRELATION_WINDOW_MAX : ℕ := 10
def NODE_IS_NEW : ℕ := 25
def NODE_CERTAINTY_AGE_FACTOR : ℚ := 25
def CE_CERTAINTY_AGE_FACTOR : ℚ := 25
def NODE_REQUIRED_UTILIZATION : ℚ := 55550
def CLUSTER_REQUIRED_UTILIZATION : ℚ := 27500
def MAX_NODES : ℕ := 6000
def INITIAL_NODES : ℕ := 250
def NODE_POSITION_LEARNING_RATE : ℚ := 4/100
def NODE_POSITION_MOMENTUM_DECAY : ℚ := 1/2
def NODE_POSITION_MOMENTUM_ALPHA : ℚ := 0
def AVG_DISTANCE_MOMENTUM_DECAY : ℚ := 1/2

/-! ## `db/one_to_many_table.py` -/

/-- One row of a `OneToManyTable`: the parallel arrays `list`, `strengths`,
`position`, `count` kept for an item. -/
structure Entry where
  list : List Name
  strengths : List ℚ
  position : List (Option ℚ)
  count : List ℕ
  deriving DecidableEq, Repr

/-- `OneToManyTable.data`: item name → row, in insertion order. -/
abbrev Table := List (Name × Entry)

/-- `OneToManyTable._normalize`: divide by the total, raising when the total
is zero or less. -/
def normalizeVals (l : List ℚ) : Except Err (List ℚ) :=
  if l.sum ≤ 0 then .error .normalizeNonpositive
  else .ok (l.map (fun x => x / l.sum))

/-- `OneToManyTable._normalize_item`. -/
def normalizeItem (t : Table) (item : Name) : MRes Table :=
  match alook t item with
  | none => mraise t .keyError
  | some e =>
    match normalizeVals e.strengths with
    | .error er => mraise t er
    | .ok s => mok (aset t item { e with strengths := s })

/-- `OneToManyTable.add`: inserts a fresh row (note: `position` and `count`
always start as the singletons `[pos]` and `[1]`). -/
def tableAdd (t : Table) (item : Name) (related : List Name) (strengths : List ℚ)
    (pos : Option ℚ) : MRes Table :=
  match alook t item with
  | none => mok (t ++ [(item, ⟨related, strengths, [pos], [1]⟩)])
  | some _ => mraise t .itemAlreadyInTable

/-- `OneToManyTable.is_related`. -/
def isRelated (t : Table) (item related : Name) : Bool :=
  match alook t item with
  | none => false
  | some e => e.list.contains related

/-- `OneToManyTable.add_related_item`: note that on the fresh-item path the
row is created with strengths `[1]`, ignoring the `strength` argument, exactly
as the source does. -/
def addRelatedItem (t : Table) (item related : Name) (strength : ℚ)
    (pos : Option ℚ) : MRes Table :=
  match alook t item with
  | none => mbind (tableAdd t item [related] [1] pos) (fun t1 => normalizeItem t1 item)
  | some e =>
    if related ∈ e.list then mraise t .alreadyRelated
    else
      let e' : Entry := ⟨e.list ++ [related], e.strengths ++ [strength],
        e.position ++ [pos], e.count ++ [1]⟩
      normalizeItem (aset t item e') item

/-- `OneToManyTable.remove_related_item`: pops index `idx` from each parallel
array and re-normalizes only when the remaining list is non-empty. -/
def removeRelatedItem (t : Table) (item related : Name) : MRes Table :=
  match alook t item with
  | none => mraise t .keyError
  | some e =>
    match e.list.findIdx? (· = related) with
    | none => mraise t .valueError
    | some idx =>
      let e' : Entry := ⟨e.list.eraseIdx idx, e.strengths.eraseIdx idx,
        e.position.eraseIdx idx, e.count.eraseIdx idx⟩
      let t' := aset t item e'
      if e'.list.length > 0 then normalizeItem t' item else mok t'

/-- `OneToManyTable.increase_relationship_strength`: bumps the strength and
observation count at the index of `related`, updates the stored position as a
running mean (`pos += (newPos - pos) / count`, count incremented first), then
re-normalizes. -/
def increaseRelationshipStrength (t : Table) (item related : Name) (amount : ℚ)
    (pos : Option ℚ) : MRes Table :=
  if ¬ isRelated t item related then mraise t .assertionFailed
  else
    match alook t item with
    | none => mraise t .keyError
    | some e =>
      match e.list.findIdx? (· = related) with
      | none => mraise t .valueError
      | some idx =>
        if idx < e.strengths.length ∧ idx < e.count.length ∧ idx < e.position.length then
          let strengths' := e.strengths.set idx (e.strengths.getD idx 0 + amount)
          let count' := e.count.set idx (e.count.getD idx 0 + 1)
          match e.position.getD idx none with
          | some oldPos =>
            match pos with
            | none =>
              mraise (aset t item ⟨e.list, strengths', e.position, count'⟩) .typeError
            | some p =>
              let newPos := oldPos + (p - oldPos) / (count'.getD idx 0 : ℚ)
              normalizeItem
                (aset t item ⟨e.list, strengths', e.position.set idx (some newPos), count'⟩)
                item
          | none =>
            normalizeItem (aset t item ⟨e.list, strengths', e.position.set idx pos, count'⟩)
              item
        else mraise t .indexError

/-! ## State of the whole engine -/

/-- `modules/cortex/node.py` — the mutable fields of a `Node`. -/
structure NodeState where
  cortex : Name
  created_at : ℕ
  position : ℚ
  position_momentum : ℚ
  qty_feedback_packets : ℕ
  last_utilized : Option ℕ
  last_encoding : Option ℚ
  deriving DecidableEq, Repr

/-- `modules/cortex/cluster.py` — the mutable fields of a `Cluster`
(`REQUIRED_UTILIZATION` is always the config default in the source). -/
structure ClusterState where
  cortex : Name
  created_at : ℕ
  last_fired : Option ℕ
  last_feedback_packet : Option ℕ
  deriving DecidableEq, Repr

/-- `modules/cdz/cluster_correlation.py` — a `ClusterCorrelation` record.
`connections` is the defaultdict name → weight; `cluster_objects` its key set
(values are the identically-named cluster objects); `ref_clusters` the list of
clusters referencing this one. -/
structure ClusterCorr where
  cluster : Name
  age : ℕ
  connections : List (Name × ℚ)
  cluster_objects : List Name
  ref_clusters : List Name
  deriving DecidableEq, Repr

/-- `modules/shared_components/data_packet.py`. The `cortex` property reads
`cluster.cortex`, which never changes, so it is recorded at creation. -/
structure DataPacket where
  cluster : Name
  cortex : Name
  strength : ℚ
  time : ℕ
  source_node : Name
  deriving DecidableEq, Repr

/-- `modules/cortex/node_manager.py` — the mutable fields of a `NodeManager`
(one per cortex; keyed by its cortex's name). The approximate-search annoy
index is an external dependency and is modelled as absent (`nn_index = None`),
i.e. the exact linear-scan branch of `_find_nearest_node`. `name_counter`
backs the name generator. -/
structure ManagerState where
  last_fired_node : Option Name
  finished_initial : Bool
  avg_distance : ℚ
  distance_count : ℕ
  avg_distance_momentum : ℚ
  name_counter : ℕ
  deriving DecidableEq, Repr

/-- The whole engine: the `Database` tables (`db/database.py`), the CDZ
correlation map and packet queue (`modules/cdz/cdz.py`), the per-cortex node
managers, and the global timestep. -/
structure System where
  nodes : List (Name × NodeState)
  clusters : List (Name × ClusterState)
  nodes_to_clusters : Table
  clusters_to_nodes : Table
  node_manager_to_nodes : Table
  correlations : List (Name × ClusterCorr)
  packet_queue : List DataPacket
  managers : List (Name × ManagerState)
  timestep : ℕ
  deriving DecidableEq, Repr

/-! ## `db/database.py` -/

def liftN2C (s : System) (r : MRes Table) : MRes System :=
  ({ s with nodes_to_clusters := r.1 }, r.2)

def liftC2N (s : System) (r : MRes Table) : MRes System :=
  ({ s with clusters_to_nodes := r.1 }, r.2)

def liftNM (s : System) (r : MRes Table) : MRes System :=
  ({ s with node_manager_to_nodes := r.1 }, r.2)

/-- `Database.add_node`: registers both objects, creates the single reciprocal
edge of weight 1 in each mirror table, and appends the node to its manager's
row. -/
def addNode (s : System) (nodeName : Name) (node : NodeState) (clusterName : Name)
    (cluster : ClusterState) : MRes System :=
  let s := { s with nodes := bset s.nodes nodeName node,
                    clusters := bset s.clusters clusterName cluster }
  mbind (liftN2C s (tableAdd s.nodes_to_clusters nodeName [clusterName] [1] none)) fun s =>
  mbind (liftC2N s (tableAdd s.clusters_to_nodes clusterName [nodeName] [1] none)) fun s =>
  liftNM s (addRelatedItem s.node_manager_to_nodes node.cortex nodeName 1 none)

/-- The loop in `Database.delete_node`: detach `nodeName` from every cluster
in `cs`. -/
def deleteNodeLoop (nodeName : Name) (s : System) : List Name → MRes System
  | [] => mok s
  | c :: rest =>
    mbind (liftC2N s (removeRelatedItem s.clusters_to_nodes c nodeName)) fun s =>
      deleteNodeLoop nodeName s rest

/-- `Database.delete_node`. -/
def deleteNode (s : System) (nodeName : Name) : MRes System :=
  match alook s.nodes nodeName with
  | none => mraise s .keyError
  | some node =>
    let s := { s with nodes := adel s.nodes nodeName }
    match alook s.nodes_to_clusters nodeName with
    | none => mraise s .keyError
    | some e =>
      mbind (deleteNodeLoop nodeName s e.list) fun s =>
        let s := { s with nodes_to_clusters := adel s.nodes_to_clusters nodeName }
        liftNM s (removeRelatedItem s.node_manager_to_nodes node.cortex nodeName)

/-- `ClusterCorrelation._normalize`: silently returns the connections
unchanged when their sum is not positive (`if val_sum > 0`). -/
def corrNormalize (c : List (Name × ℚ)) : List (Name × ℚ) :=
  let total := (c.map Prod.snd).sum
  if total > 0 then c.map (fun p => (p.1, p.2 / total)) else c

/-- `ClusterCorrelation.remove_cluster`. -/
def corrRemoveCluster (r : ClusterCorr) (target : Name) : MRes ClusterCorr :=
  if (alook r.connections target).isSome then
    if target ∈ r.cluster_objects then
      mok { r with connections := corrNormalize (adel r.connections target),
                   cluster_objects := r.cluster_objects.erase target }
    else mraise { r with connections := adel r.connections target } .keyError
  else mraise r .keyError

/-- First loop of `CDZ.remove_cluster`: for every cluster this one excites,
drop the back-reference (`ref_clusters.remove(cluster)`). -/
def cdzRemoveRefsLoop (clusterName : Name) (corr : List (Name × ClusterCorr)) :
    List Name → MRes (List (Name × ClusterCorr))
  | [] => mok corr
  | e :: rest =>
    match alook corr e with
    | none => mraise corr .keyError
    | some r =>
      if clusterName ∈ r.ref_clusters then
        cdzRemoveRefsLoop clusterName
          (aset corr e { r with ref_clusters := r.ref_clusters.erase clusterName }) rest
      else mraise corr .valueError

/-- Second loop of `CDZ.remove_cluster`: every record that excites this
cluster removes it from itself. -/
def cdzRemoveFromLoop (clusterName : Name) (corr : List (Name × ClusterCorr)) :
    List Name → MRes (List (Name × ClusterCorr))
  | [] => mok corr
  | b :: rest =>
    match alook corr b with
    | none => mraise corr .keyError
    | some r =>
      match corrRemoveCluster r clusterName with
      | (r', none) => cdzRemoveFromLoop clusterName (aset corr b r') rest
      | (r', some er) => mraise (aset corr b r') er

/-- `CDZ.remove_cluster` as a function of the correlations map alone (the
method reads and writes only `self.correlations`). -/
def cdzRemoveCluster (corr : List (Name × ClusterCorr)) (clusterName : Name) :
    MRes (List (Name × ClusterCorr)) :=
  match alook corr clusterName with
  | none => mok corr
  | some rec =>
    mbind (cdzRemoveRefsLoop clusterName corr rec.cluster_objects) fun corr =>
    mbind (cdzRemoveFromLoop clusterName corr rec.ref_clusters) fun corr =>
    mok (adel corr clusterName)

/-- The per-node body of the `force` loop in `Database._delete_cluster`. -/
def deleteClusterLoop (clusterName : Name) (s : System) : List Name → MRes System
  | [] => mok s
  | n :: rest =>
    mbind (liftN2C s (removeRelatedItem s.nodes_to_clusters n clusterName)) fun s =>
    mbind (liftC2N s (removeRelatedItem s.clusters_to_nodes clusterName n)) fun s =>
    mbind (match alook s.nodes_to_clusters n with
           | none => mraise s .keyError
           | some e => if e.list = [] then deleteNode s n else mok s) fun s =>
    deleteClusterLoop clusterName s rest

/-- `Database._delete_cluster`: with `force`, detach every node edge first
(deleting nodes left with zero cluster edges), assert the cluster has no nodes
left, remove it from the identity and edge tables, and remove it from the
CDZ. -/
def deleteCluster (s : System) (clusterName : Name) (force : Bool) : MRes System :=
  mbind
    (if force then
      match alook s.clusters_to_nodes clusterName with
      | none => mraise s .keyError
      | some e => deleteClusterLoop clusterName s e.list
     else mok s) fun s =>
  match alook s.clusters_to_nodes clusterName with
  | none => mraise s .keyError
  | some e =>
    if e.list = [] then
      match alook s.clusters clusterName with
      | none => mraise s .keyError
      | some _ =>
        let s := { s with clusters := adel s.clusters clusterName,
                          clusters_to_nodes := adel s.clusters_to_nodes clusterName }
        match cdzRemoveCluster s.correlations clusterName with
        | (corr, none) => mok { s with correlations := corr }
        | (corr, some er) => mraise { s with correlations := corr } er
    else mraise s .assertionFailed

/-- `Database.adjust_node_to_cluster_strength`: the source computes both
`is_node_related` and `is_cluster_related` from `nodes_to_clusters`, so the
assert compares the flag with itself. A new relationship is added to both
mirror tables (position only on the node side); an existing one is
strengthened on the node side only. -/
def adjustNodeToClusterStrength (s : System) (nodeName clusterName : Name)
    (amount : ℚ) (last_encoding : Option ℚ) : MRes System :=
  let is_node_related := isRelated s.nodes_to_clusters nodeName clusterName
  let is_cluster_related := isRelated s.nodes_to_clusters nodeName clusterName
  if is_node_related ≠ is_cluster_related then mraise s .assertionFailed
  else if is_node_related = false then
    mbind (liftN2C s (addRelatedItem s.nodes_to_clusters nodeName clusterName amount
      last_encoding)) fun s =>
      liftC2N s (addRelatedItem s.clusters_to_nodes clusterName nodeName amount none)
  else
    liftN2C s (increaseRelationshipStrength s.nodes_to_clusters nodeName clusterName
      amount last_encoding)

/-- `Database.adjust_cluster_to_node_strength` (edge-weight-only; no
position). -/
def adjustClusterToNodeStrength (s : System) (clusterName nodeName : Name)
    (amount : ℚ) : MRes System :=
  liftC2N s (increaseRelationshipStrength s.clusters_to_nodes clusterName nodeName
    amount none)

/-! ## `modules/cortex/node.py` -/

/-- `Node.is_new`: true when `last_utilized` is unset, or when the feedback
count has not yet exceeded `NODE_IS_NEW`. -/
def nodeIsNew (n : NodeState) : Bool :=
  match n.last_utilized with
  | none => true
  | some _ => n.qty_feedback_packets ≤ NODE_IS_NEW

/-- `Node.is_underutilized`. -/
def nodeIsUnderutilized (n : NodeState) (timestep : ℕ) : Bool :=
  let time_to_use := max n.created_at (n.last_utilized.getD 0)
  ((timestep : ℚ) - (time_to_use : ℚ)) ≥ NODE_REQUIRED_UTILIZATION

/-- `Node.get_distance`: the Euclidean norm is modelled by its square (same
argmin over candidates; `ℚ` has no square root). The second component is the
distance vector `position - target`. -/
def nodeGetDistance (n : NodeState) (pos : ℚ) : ℚ × ℚ :=
  ((n.position - pos) ^ 2, n.position - pos)

/-- `Node._move_in_direction` followed by the `last_utilized` update of
`Node.learn`. -/
def nodeLearn (n : NodeState) (pos : ℚ) (timestep : ℕ) : NodeState :=
  let direction := -1 * (n.position - pos)
  { n with
    position := n.position + NODE_POSITION_LEARNING_RATE *
      (direction + NODE_POSITION_MOMENTUM_ALPHA * n.position_momentum),
    position_momentum := NODE_POSITION_MOMENTUM_DECAY * n.position_momentum +
      NODE_POSITION_LEARNING_RATE * direction,
    last_utilized := some timestep }

/-- `Node.uncertainty` (reads the node's cluster strengths from the store). -/
def nodeUncertainty (s : System) (nodeName : Name) : Except Err ℚ :=
  match alook s.nodes nodeName with
  | none => .error .keyError
  | some n =>
    match alook s.nodes_to_clusters nodeName with
    | none => .error .keyError
    | some e =>
      match e.strengths.max? with
      | none => .error .valueError
      | some m =>
        let feedback_scale := min ((n.qty_feedback_packets : ℚ) / NODE_CERTAINTY_AGE_FACTOR) 1
        let certainty := m ^ 2 * feedback_scale
        if 0 ≤ certainty ∧ certainty ≤ 1 then .ok (1 - certainty)
        else .error .assertionFailed

/-- `Node.certainty`. -/
def nodeCertainty (s : System) (nodeName : Name) : Except Err ℚ :=
  match nodeUncertainty s nodeName with
  | .error e => .error e
  | .ok u => .ok (1 - u)

/-- `Node.receive_feedback_packet`: strengthen the edge to the packet's
cluster by `strength * NODE_TO_CLUSTER_LEARNING_RATE`, then count the
packet. `last_utilized` is not touched. -/
def nodeReceiveFeedback (s : System) (nodeName : Name) (packet : DataPacket) :
    MRes System :=
  match alook s.nodes nodeName with
  | none => mraise s .keyError
  | some node =>
    let amount := packet.strength * NODE_TO_CLUSTER_LEARNING_RATE
    mbind (adjustNodeToClusterStrength s nodeName packet.cluster amount
      node.last_encoding) fun s =>
      match alook s.nodes nodeName with
      | none => mraise s .keyError
      | some node =>
        let node' := { node with qty_feedback_packets := node.qty_feedback_packets + 1 }
        mok { s with nodes := aset s.nodes nodeName node' }

/-! ## `modules/cdz/cluster_correlation.py` -/

/-- Python `max(assoc, key=value)`: the first key attaining the maximal
value (later entries replace only on strict `>`). -/
def maxByValGo (best : Name × ℚ) : List (Name × ℚ) → Name × ℚ
  | [] => best
  | q :: rest => maxByValGo (if q.2 > best.2 then q else best) rest

def maxByVal : List (Name × ℚ) → Option (Name × ℚ)
  | [] => none
  | q :: rest => some (maxByValGo q rest)

/-- `ClusterCorrelation.get_strongest_correlation` (raises on an empty
record; also requires the cached object reference to exist). -/
def getStrongestCorrelation (r : ClusterCorr) : Except Err (Name × ℚ) :=
  match maxByVal r.connections with
  | none => .error .valueError
  | some (n, v) => if n ∈ r.cluster_objects then .ok (n, v) else .error .keyError

/-- `ClusterCorrelation.uncertainty`. -/
def corrUncertainty (r : ClusterCorr) : Except Err ℚ :=
  match getStrongestCorrelation r with
  | .error e => .error e
  | .ok (_, strength) =>
    let feedback_scale := min ((r.age : ℚ) / CE_CERTAINTY_AGE_FACTOR) 1
    let certainty := strength ^ 2 * feedback_scale
    if 0 ≤ certainty ∧ certainty ≤ 1 then .ok (1 - certainty)
    else .error .assertionFailed

/-- `ClusterCorrelation.certainty`. -/
def corrCertainty (r : ClusterCorr) : Except Err ℚ :=
  match corrUncertainty r with
  | .error e => .error e
  | .ok u => .ok (1 - u)

/-- defaultdict `d[k] += u`: update in place, or append `0 + u` at the end. -/
def addToVal (c : List (Name × ℚ)) (n : Name) (u : ℚ) : List (Name × ℚ) :=
  match alook c n with
  | some v => aset c n (v + u)
  | none => c ++ [(n, u)]

/-- dict `d[k] = k`-style key recording for `cluster_objects`. -/
def insertNew (l : List Name) (n : Name) : List Name :=
  if n ∈ l then l else l ++ [n]

/-- `ClusterCorrelation.update`: checks its asserts, weighs by the kernel
value at the time gap, bumps the connection, re-normalizes, ages the record
and caches the target cluster reference. `g` is `CDZ.GAUSSIAN`. -/
def corrUpdate (g : List ℚ) (r : ClusterCorr) (q_packet new_packet : DataPacket) :
    MRes ClusterCorr :=
  if q_packet.cluster ≠ r.cluster then mraise r .assertionFailed
  else if q_packet.cortex = new_packet.cortex then mraise r .assertionFailed
  else if ¬ max q_packet.strength new_packet.strength ≤ 1 then mraise r .assertionFailed
  else
    let time_diff : ℤ := (new_packet.time : ℤ) - (q_packet.time : ℤ)
    if time_diff < 0 then mraise r .assertionFailed
    else
      match g.get? time_diff.toNat with
      | none => mraise r .indexError
      | some w =>
        let correlation_update := CE_LEARNING_RATE * w * new_packet.strength * q_packet.strength
        mok { r with
          connections := corrNormalize (addToVal r.connections new_packet.cluster
            correlation_update),
          age := r.age + 1,
          cluster_objects := insertNew r.cluster_objects new_packet.cluster }

/-! ## `modules/cdz/cdz.py` -/

/-- The degenerate kernel built when `CE_IGNORE_GAUSSIAN` is set:
`[1, 0, ..., 0]` of length `CE_CORRELATION_WINDOW_MAX`. -/
def degenerateGaussian : List ℚ := 1 :: List.replicate 9 0

/-- Create an empty `ClusterCorrelation(cluster, cdz)` record (age 1). -/
def ensureCorr (corr : List (Name × ClusterCorr)) (c : Name) :
    List (Name × ClusterCorr) :=
  match alook corr c with
  | some _ => corr
  | none => corr ++ [(c, ⟨c, 1, [], [], []⟩)]

/-- `ClusterCorrelation.add_ref` applied to the record of `c`. -/
def addRefAt (s : System) (c refCluster : Name) : MRes System :=
  match alook s.correlations c with
  | none => mraise s .keyError
  | some r =>
    if refCluster ∈ r.ref_clusters then mok s
    else
      let r' := { r with ref_clusters := r.ref_clusters ++ [refCluster] }
      mok { s with correlations := aset s.correlations c r' }

/-- `CDZ._update_connection`: skip entirely when both packets share a cortex;
otherwise ensure both records exist, update old → new, and back-reference
new → old. -/
def updateConnection (s : System) (g : List ℚ) (old_packet new_packet : DataPacket) :
    MRes System :=
  if new_packet.cortex = old_packet.cortex then mok s
  else
    let s := { s with correlations := ensureCorr s.correlations old_packet.cluster }
    let s := { s with correlations := ensureCorr s.correlations new_packet.cluster }
    match alook s.correlations old_packet.cluster with
    | none => mraise s .keyError
    | some r =>
      match corrUpdate g r old_packet new_packet with
      | (r', none) =>
        addRefAt { s with correlations := aset s.correlations old_packet.cluster r' }
          new_packet.cluster old_packet.cluster
      | (r', some er) =>
        mraise { s with correlations := aset s.correlations old_packet.cluster r' } er

/-- `Cluster.receive_feedback_packet` followed by
`NodeManager.receive_feedback_packet`: record the feedback timestep and route
to the manager's most recently fired node. -/
def clusterReceiveFeedback (s : System) (clusterName : Name) (fb : DataPacket) :
    MRes System :=
  match alook s.clusters clusterName with
  | none => mraise s .keyError
  | some cl =>
    let cl' := { cl with last_feedback_packet := some s.timestep }
    let s := { s with clusters := aset s.clusters clusterName cl' }
    match alook s.managers cl.cortex with
    | none => mraise s .keyError
    | some m =>
      match m.last_fired_node with
      | none => mraise s .attributeError
      | some n => nodeReceiveFeedback s n fb

/-- `CDZ._send_feedback_packet`: find the most correlated cluster in the
other modality, amplify by `(1 + certainty_factor)²`, and deliver the
feedback packet to it. -/
def sendFeedbackPacket (s : System) (packet : DataPacket) : MRes System :=
  match alook s.correlations packet.cluster with
  | none => mraise s .keyError
  | some r =>
    match getStrongestCorrelation r with
    | .error e => mraise s e
    | .ok (targetName, _) =>
      match nodeCertainty s packet.source_node with
      | .error e => mraise s e
      | .ok nc =>
        match corrCertainty r with
        | .error e => mraise s e
        | .ok cc =>
          let strength := (1 + nc * cc) ^ 2
          match alook s.clusters targetName with
          | none => mraise s .keyError
          | some target =>
            clusterReceiveFeedback s targetName
              ⟨targetName, target.cortex, strength, packet.time, packet.source_node⟩

/-- The queue scan of `CDZ.receive_packet`: stop at the first queued packet
older than the window; update and send feedback for queued packets at exactly
the same timestep when learning. -/
def scanQueue (g : List ℚ) (packet : DataPacket) (learn : Bool) (s : System) :
    List DataPacket → MRes System
  | [] => mok s
  | q :: rest =>
    if (packet.time : ℤ) - (q.time : ℤ) ≥ (CE_CORRELATION_WINDOW_MAX : ℤ) then mok s
    else if packet.time = q.time ∧ learn = true then
      mbind (updateConnection s g q packet) fun s =>
      mbind (updateConnection s g packet q) fun s =>
      mbind (sendFeedbackPacket s q) fun s =>
      mbind (sendFeedbackPacket s packet) fun s =>
      scanQueue g packet learn s rest
    else scanQueue g packet learn s rest

/-- `CDZ.receive_packet`: scan the queue, run the (stubbed, early-returning)
`_process_output`, and push the packet onto the bounded queue
(`maxlen = len(GAUSSIAN) + 1`). -/
def receivePacket (s : System) (g : List ℚ) (packet : DataPacket) (learn : Bool) :
    MRes System :=
  mbind (scanQueue g packet learn s s.packet_queue) fun s =>
    mok { s with packet_queue := (packet :: s.packet_queue).take (g.length + 1) }

/-- `Cluster.excite_cdz`: build the packet, record `last_fired`, strengthen
the cluster→node edge when learning, and forward to the CDZ. -/
def clusterExciteCdz (s : System) (g : List ℚ) (clusterName : Name) (strength : ℚ)
    (sourceNode : Name) (learn : Bool) : MRes System :=
  match alook s.clusters clusterName with
  | none => mraise s .keyError
  | some cl =>
    let packet : DataPacket := ⟨clusterName, cl.cortex, strength, s.timestep, sourceNode⟩
    let cl' := { cl with last_fired := some s.timestep }
    let s := { s with clusters := aset s.clusters clusterName cl' }
    if learn then
      mbind (adjustClusterToNodeStrength s clusterName sourceNode
        CLUSTER_NODE_LEARNING_RATE) fun s =>
        receivePacket s g packet learn
    else receivePacket s g packet learn

/-! ## `modules/cortex/node_manager.py` -/

/-- Modelled from the spec: `utils.name_generator` (the `utils/utils.py`
module is not in the source tree; only its callers are). The spec requires a
globally unique, stream-scoped name (generator plus optional suffix); any
injective stream-scoped generator is faithful. -/
def freshName (cortexName : Name) (counter : ℕ) : Name :=
  cortexName ++ "_n" ++ toString counter

/-- `np.argmax`: index of the first maximal element. -/
def firstArgmaxGo : List ℚ → ℕ → ℕ → ℚ → ℕ
  | [], _, bi, _ => bi
  | x :: rest, i, bi, bv =>
    if x > bv then firstArgmaxGo rest (i + 1) i x else firstArgmaxGo rest (i + 1) bi bv

def firstArgmax : List ℚ → Option ℕ
  | [] => none
  | x :: rest => some (firstArgmaxGo rest 1 0 x)

/-- `Node.get_strongest_cluster`: the cluster at the argmax of the node's
edge strengths. -/
def getStrongestCluster (s : System) (nodeName : Name) : Except Err Name :=
  match alook s.nodes_to_clusters nodeName with
  | none => .error .keyError
  | some e =>
    match firstArgmax e.strengths with
    | none => .error .valueError
    | some i =>
      match e.list.get? i with
      | none => .error .indexError
      | some c => .ok c

/-- Python `min(tuples, key=snd)`: the first pair attaining the minimal
distance. -/
def minBySndGo (best : Name × ℚ) : List (Name × ℚ) → Name × ℚ
  | [] => best
  | q :: rest => minBySndGo (if q.2 < best.2 then q else best) rest

/-- `NodeManager._find_nearest_node` in the exact linear-scan branch
(`nn_index` absent): the manager's node nearest to the encoding, with its
distance. -/
def findNearestNode (s : System) (cortexName : Name) (encoding : ℚ) :
    Except Err (Name × ℚ) :=
  match alook s.node_manager_to_nodes cortexName with
  | none => .error .keyError
  | some e =>
    let pairs := e.list.map fun n =>
      (n, match alook s.nodes n with
          | some node => (nodeGetDistance node encoding).1
          | none => 0)
    match pairs with
    | [] => .error .assertionFailed
    | q :: rest => .ok (minBySndGo q rest)

/-- `NodeManager._update_avg_distance`. -/
def updateAvgDistance (m : ManagerState) (distance : ℚ) : ManagerState :=
  let distance_count := m.distance_count + 1
  let new_avg := m.avg_distance + (distance - m.avg_distance) / (distance_count : ℚ)
  { m with distance_count := distance_count,
           avg_distance_momentum := AVG_DISTANCE_MOMENTUM_DECAY * m.avg_distance_momentum
             + new_avg - m.avg_distance }

/-- `NodeManager._add_initial_nodes`: while the bootstrap is unfinished,
create one node+cluster pair at the encoding; then mark the bootstrap
finished once the population reaches `INITIAL_NODES`. -/
def addInitialNodes (s : System) (cortexName : Name) (encoding : ℚ) : MRes System :=
  match alook s.managers cortexName with
  | none => mraise s .keyError
  | some m =>
    match alook s.node_manager_to_nodes cortexName with
    | none => mraise s .keyError
    | some e =>
      mbind
        (if e.list.length ≤ MAX_NODES ∧ m.finished_initial = false then
          let nodeName := freshName cortexName m.name_counter
          let clusterName := "cluster_" ++ nodeName
          let node : NodeState :=
            ⟨cortexName, s.timestep, encoding, 0, 0, none, none⟩
          let cluster : ClusterState := ⟨cortexName, s.timestep, none, none⟩
          let m' := { m with name_counter := m.name_counter + 1 }
          let s := { s with managers := aset s.managers cortexName m' }
          addNode s nodeName node clusterName cluster
        else mok s) fun s =>
      match alook s.managers cortexName, alook s.node_manager_to_nodes cortexName with
      | some m, some e =>
        if e.list.length ≥ INITIAL_NODES then
          let m' := { m with finished_initial := true }
          mok { s with managers := aset s.managers cortexName m' }
        else mok s
      | _, _ => mraise s .keyError

/-- `NodeManager.receive_encoding`: bootstrap step, nearest-node search,
record the encoding on the node, find its strongest cluster, remember the
node as last fired, learn when requested, and excite the strongest cluster
with strength 1. The returned cluster is informational only and is not
modelled. -/
def receiveEncoding (s : System) (g : List ℚ) (cortexName : Name) (encoding : ℚ)
    (learn : Bool) : MRes System :=
  mbind (addInitialNodes s cortexName encoding) fun s =>
  match findNearestNode s cortexName encoding with
  | .error e => mraise s e
  | .ok (nearest, distance) =>
    match alook s.nodes nearest with
    | none => mraise s .keyError
    | some node =>
      let node₁ := { node with last_encoding := some encoding }
      let s := { s with nodes := aset s.nodes nearest node₁ }
      match getStrongestCluster s nearest with
      | .error e => mraise s e
      | .ok strongest =>
        match alook s.managers cortexName with
        | none => mraise s .keyError
        | some m =>
          let m₁ := { m with last_fired_node := some nearest }
          let s := { s with managers := aset s.managers cortexName m₁ }
          mbind
            (if learn then
              match alook s.nodes nearest, alook s.managers cortexName with
              | some node₂, some m₂ =>
                let node₃ := nodeLearn node₂ encoding s.timestep
                let s := { s with nodes := aset s.nodes nearest node₃ }
                let m₃ := updateAvgDistance m₂ distance
                mok { s with managers := aset s.managers cortexName m₃ }
              | _, _ => mraise s .keyError
            else mok s) fun s =>
          clusterExciteCdz s g strongest 1 nearest learn

/-! ## Invariants and the public mutation step -/

/-- Invariant I1/P1 for one row: an item with at least one outgoing edge has
weights summing to 1 within the 0.01 tolerance. -/
def entryNormalized (e : Entry) : Prop :=
  e.list ≠ [] → |e.strengths.sum - 1| ≤ 1/100

/-- Invariant I1/P1 for a table. -/
def tableNormalized (t : Table) : Prop :=
  ∀ p ∈ t, entryNormalized p.2

/-- Invariant I1/P1 for the relationship store: every node and grouping with
at least one outgoing edge has normalized outgoing weights. -/
def normalizedInv (s : System) : Prop :=
  tableNormalized s.nodes_to_clusters ∧ tableNormalized s.clusters_to_nodes

instance (e : Entry) : Decidable (entryNormalized e) := by
  unfold entryNormalized; infer_instance

instance (t : Table) : Decidable (tableNormalized t) := by
  unfold tableNormalized; infer_instance

instance (s : System) : Decidable (normalizedInv s) := by
  unfold normalizedInv; infer_instance

/-- The public mutating operations of the relationship store
(`db/database.py` plus `OneToManyTable.remove_related_item` on either edge
table). -/
inductive DbMutation where
  | addNodeOp (nodeName : Name) (node : NodeState) (clusterName : Name)
      (cluster : ClusterState)
  | adjustN2COp (nodeName clusterName : Name) (amount : ℚ) (pos : Option ℚ)
  | adjustC2NOp (clusterName nodeName : Name) (amount : ℚ)
  | deleteNodeOp (nodeName : Name)
  | deleteClusterOp (clusterName : Name) (force : Bool)
  | removeRelN2COp (item related : Name)
  | removeRelC2NOp (item related : Name)

/-- Apply one public mutating operation. -/
def applyMutation (s : System) : DbMutation → MRes System
  | .addNodeOp n node c cluster => addNode s n node c cluster
  | .adjustN2COp n c a p => adjustNodeToClusterStrength s n c a p
  | .adjustC2NOp c n a => adjustClusterToNodeStrength s c n a
  | .deleteNodeOp n => deleteNode s n
  | .deleteClusterOp c f => deleteCluster s c f
  | .removeRelN2COp i r => liftN2C s (removeRelatedItem s.nodes_to_clusters i r)
  | .removeRelC2NOp i r => liftC2N s (removeRelatedItem s.clusters_to_nodes i r)

/-! ## Frame views for the non-learning claim -/

/-- A node's state with the `last_encoding` scratch field erased: the view of
a node that a non-learning `receive_encoding` call must leave unchanged. -/
def nodeFrame (n : NodeState) : NodeState := { n with last_encoding := none }

/-- A cluster's state with the `last_fired` timestamp erased: the view of a
cluster that a non-learning `receive_encoding` call must leave unchanged. -/
def clusterFrame (c : ClusterState) : ClusterState := { c with last_fired := none }

/-- A manager's state with the `last_fired_node` pointer erased: the view of
a node manager that a non-learning `receive_encoding` call must leave
unchanged (in particular the average-distance statistics and the name
counter). -/
def managerFrame (m : ManagerState) : ManagerState := { m with last_fired_node := none }

/-! ## Example systems (fixtures for concrete runs) -/

/-- A two-cortex engine ("A" and "B") right after each cortex was
constructed: empty tables except the managers' pre-created rows (the
`Cortex.__init__` call `db.node_manager_to_nodes.add(nm, [], [])`). Both
bootstraps are marked finished and each manager has a last-fired node. -/
def exS0 : System :=
  { nodes := [], clusters := [], nodes_to_clusters := [], clusters_to_nodes := [],
    node_manager_to_nodes := [("A", ⟨[], [], [none], [1]⟩), ("B", ⟨[], [], [none], [1]⟩)],
    correlations := [], packet_queue := [],
    managers := [("A", ⟨some "nA", true, 0, 0, 0, 1⟩), ("B", ⟨some "nB", true, 0, 0, 0, 1⟩)],
    timestep := 5 }

def exNodeA : NodeState := ⟨"A", 0, 0, 0, 0, none, none⟩

def exNodeB : NodeState := ⟨"B", 0, 5, 0, 0, none, none⟩

def exClusterA : ClusterState := ⟨"A", 0, none, none⟩

def exClusterB : ClusterState := ⟨"B", 0, none, none⟩

/-- `exS0` after `add_node(nA, cA)` and `add_node(nB, cB)`: one node+cluster
pair per cortex, each pair sharing a single reciprocal edge of weight 1. -/
def exS2 : System :=
  ((addNode (addNode exS0 "nA" exNodeA "cA" exClusterA).1 "nB" exNodeB "cB" exClusterB).1)

/-- A packet from cluster `cA` of cortex "A" at timestep 5. -/
def exQA : DataPacket := ⟨"cA", "A", 1, 5, "nA"⟩

/-- A packet from cluster `cB` of cortex "B" at timestep 5. -/
def exPB : DataPacket := ⟨"cB", "B", 1, 5, "nB"⟩

/-- `exS2` with `exQA` sitting in the correlation window. -/
def exS2Q : System := { exS2 with packet_queue := [exQA] }

/-- A non-degenerate, bell-shaped stand-in kernel (strictly positive,
decaying over the whole half-width), as built when `CE_IGNORE_GAUSSIAN` is
off. -/
def gBell : List ℚ := [1, 9/10, 8/10, 7/10, 6/10, 5/10, 4/10, 3/10, 2/10, 1/10]

/-- A packet from cluster `cA` at timestep 1 (so 9 = W−1 steps before
timestep 10). -/
def exQA1 : DataPacket := ⟨"cA", "A", 1, 1, "nA"⟩

/-- A packet from cluster `cA` at timestep 0 (so 10 = W steps before
timestep 10). -/
def exQA0 : DataPacket := ⟨"cA", "A", 1, 0, "nA"⟩

/-- A packet from cluster `cB` of cortex "B" at timestep 10. -/
def exPB10 : DataPacket := ⟨"cB", "B", 1, 10, "nB"⟩

/-- `exS2` with `exQA1` queued. -/
def exS2Q1 : System := { exS2 with packet_queue := [exQA1] }

/-- `exS2` with `exQA0` queued. -/
def exS2Q0 : System := { exS2 with packet_queue := [exQA0] }

/-- 26 = `NODE_IS_NEW + 1` consecutive `Node.receive_feedback_packet` calls
on node `nA` (no other operation on the node in between). -/
def c5After26 : MRes System :=
  (List.replicate 26 ()).foldl
    (fun r _ => mbind r fun s => nodeReceiveFeedback s "nA" exQA) (mok exS2)

/-- A one-cortex engine for the cascade-deletion scenario. -/
def casS0 : System :=
  { nodes := [], clusters := [], nodes_to_clusters := [], clusters_to_nodes := [],
    node_manager_to_nodes := [("A", ⟨[], [], [none], [1]⟩)],
    correlations := [], packet_queue := [],
    managers := [("A", ⟨some "nA", true, 0, 0, 0, 3⟩)], timestep := 0 }

/-- Three node+cluster pairs in cortex "A", then `cA` strengthened to `n2`
and `n3` as new relationships: cluster `cA` ends up edged to the three nodes
`nA`, `n2`, `n3`, and `nA` has `cA` as its only cluster edge. -/
def casS5 : System :=
  let t1 := (addNode casS0 "nA" ⟨"A", 0, 0, 0, 0, none, none⟩ "cA" ⟨"A", 0, none, none⟩).1
  let t2 := (addNode t1 "n2" ⟨"A", 0, 1, 0, 0, none, none⟩ "c2" ⟨"A", 0, none, none⟩).1
  let t3 := (addNode t2 "n3" ⟨"A", 0, 2, 0, 0, none, none⟩ "c3" ⟨"A", 0, none, none⟩).1
  let t4 := (adjustNodeToClusterStrength t3 "n2" "cA" (1/2) (some 1)).1
  (adjustNodeToClusterStrength t4 "n3" "cA" (1/2) (some 2)).1

/-- Force-deletion of cluster `cA` from `casS5`. -/
def casDel : MRes System := deleteCluster casS5 "cA" true

/-- The state `exS2` written out literally (see `exS2_eval`). -/
def exS2lit : System :=
  { nodes := [("nA", exNodeA), ("nB", exNodeB)],
    clusters := [("cA", exClusterA), ("cB", exClusterB)],
    nodes_to_clusters := [("nA", ⟨["cA"], [1], [none], [1]⟩),
                          ("nB", ⟨["cB"], [1], [none], [1]⟩)],
    clusters_to_nodes := [("cA", ⟨["nA"], [1], [none], [1]⟩),
                          ("cB", ⟨["nB"], [1], [none], [1]⟩)],
    node_manager_to_nodes := [("A", ⟨["nA"], [1], [none, none], [1, 1]⟩),
                              ("B", ⟨["nB"], [1], [none, none], [1, 1]⟩)],
    correlations := [], packet_queue := [],
    managers := [("A", ⟨some "nA", true, 0, 0, 0, 1⟩), ("B", ⟨some "nB", true, 0, 0, 0, 1⟩)],
    timestep := 5 }

/-- Three `adjust_node_to_cluster_strength` calls on the fresh `nA`–`cB`
relationship with positions `p1`, `p2`, `p3`: the first creates the edge, the
next two strengthen it. -/
def c8Step (p1 p2 p3 : ℚ) : MRes System :=
  mbind (adjustNodeToClusterStrength exS2 "nA" "cB" 1 (some p1)) fun s =>
  mbind (adjustNodeToClusterStrength s "nA" "cB" 1 (some p2)) fun s =>
  adjustNodeToClusterStrength s "nA" "cB" 1 (some p3)

/-- The state after the first call of `c8Step`. -/
def c8S1 (p1 : ℚ) : System :=
  { exS2lit with
    nodes_to_clusters := [("nA", ⟨["cA", "cB"], [1/2, 1/2], [none, some p1], [1, 1]⟩),
                          ("nB", ⟨["cB"], [1], [none], [1]⟩)],
    clusters_to_nodes := [("cA", ⟨["nA"], [1], [none], [1]⟩),
                          ("cB", ⟨["nB", "nA"], [1/2, 1/2], [none, none], [1, 1]⟩)] }

/-- The state after the second call of `c8Step`. -/
def c8S2 (p1 p2 : ℚ) : System :=
  { exS2lit with
    nodes_to_clusters := [("nA", ⟨["cA", "cB"], [1/4, 3/4],
                            [none, some (p1 + (p2 - p1) / 2)], [1, 2]⟩),
                          ("nB", ⟨["cB"], [1], [none], [1]⟩)],
    clusters_to_nodes := [("cA", ⟨["nA"], [1], [none], [1]⟩),
                          ("cB", ⟨["nB", "nA"], [1/2, 1/2], [none, none], [1, 1]⟩)] }

/-- The state after the third call of `c8Step`: the running mean has
incorporated all three positions. -/
def c8S3 (p1 p2 p3 : ℚ) : System :=
  { exS2lit with
    nodes_to_clusters := [("nA", ⟨["cA", "cB"], [1/8, 7/8],
                            [none, some (p1 + (p2 - p1) / 2 + (p3 - (p1 + (p2 - p1) / 2)) / 3)],
                            [1, 3]⟩),
                          ("nB", ⟨["cB"], [1], [none], [1]⟩)],
    clusters_to_nodes := [("cA", ⟨["nA"], [1], [none], [1]⟩),
                          ("cB", ⟨["nB", "nA"], [1/2, 1/2], [none, none], [1, 1]⟩)] }

/-! ## Theorems -/

/-! ### Helper lemmas for the normalization invariant (C1) -/

theorem mem_aset {β : Type} {l : List (Name × β)} {n : Name} {v : β}
    {p : Name × β} (hp : p ∈ aset l n v) : p = (n, v) ∨ (p ∈ l ∧ p.1 ≠ n) := by
  unfold aset at hp
  rcases List.mem_map.mp hp with ⟨q, hq, hfq⟩
  by_cases hqn : q.1 = n
  · left; rw [if_pos hqn] at hfq; exact hfq.symm
  · right; rw [if_neg hqn] at hfq; exact hfq ▸ ⟨hq, hqn⟩

theorem mem_adel {β : Type} {l : List (Name × β)} {n : Name} {p : Name × β}
    (hp : p ∈ adel l n) : p ∈ l := by
  unfold adel at hp
  exact (List.mem_filter.mp hp).1

theorem sum_map_div (l : List ℚ) (c : ℚ) :
    (l.map (fun x => x / c)).sum = l.sum / c := by
  induction l with
  | nil => simp
  | cons x xs ih => simp [ih, add_div]

theorem normalizeVals_ok {l l' : List ℚ} (h : normalizeVals l = .ok l') :
    l'.sum = 1 := by
  unfold normalizeVals at h
  split at h
  · exact absurd h (by simp)
  · next hle =>
    have hpos : 0 < l.sum := lt_of_not_le hle
    have hl' : l' = l.map (fun x => x / l.sum) := by
      injection h with h'; exact h'.symm
    subst hl'
    rw [sum_map_div, div_self (ne_of_gt hpos)]

/-- Postcondition of each mutating table operation on success: every row is
either edge-free, exactly normalized, or was already present. -/
def tablePost (t t' : Table) : Prop :=
  ∀ p ∈ t', p.2.list = [] ∨ p.2.strengths.sum = 1 ∨ p ∈ t

theorem normalizeItem_post {t t' : Table} {n : Name}
    (h : normalizeItem t n = (t', none)) :
    ∀ p ∈ t', p.2.strengths.sum = 1 ∨ (p ∈ t ∧ p.1 ≠ n) := by
  unfold normalizeItem at h
  intro p hp
  split at h
  · exact absurd h (by simp [mraise])
  · next e halook =>
    split at h
    · exact absurd h (by simp [mraise])
    · next strengths' hnv =>
      simp only [mok, Prod.mk.injEq] at h
      obtain ⟨ht', -⟩ := h
      subst ht'
      rcases mem_aset hp with hpv | hpt
      · left
        rw [hpv]
        exact normalizeVals_ok hnv
      · right; exact hpt

theorem tableNormalized_of_post {t t' : Table} (ht : tableNormalized t)
    (hp : tablePost t t') : tableNormalized t' := by
  intro p hpmem
  rcases hp p hpmem with hnil | hsum | hmem
  · intro hne; exact absurd hnil hne
  · intro _
    rw [hsum]
    norm_num
  · exact ht p hmem

theorem tableNormalized_adel {t : Table} {n : Name} (ht : tableNormalized t) :
    tableNormalized (adel t n) :=
  fun p hp => ht p (mem_adel hp)

theorem tableAdd_one_post {t t' : Table} {i r : Name} {pos : Option ℚ}
    (h : tableAdd t i [r] [1] pos = (t', none)) : tablePost t t' := by
  unfold tableAdd at h
  intro p hp
  split at h
  · simp only [mok, Prod.mk.injEq] at h
    obtain ⟨ht', -⟩ := h
    subst ht'
    rcases List.mem_append.mp hp with hmem | hmem
    · right; right; exact hmem
    · right; left
      simp only [List.mem_singleton] at hmem
      rw [hmem]
      simp
  · exact absurd h (by simp [mraise])

theorem normalizeItem_aset_post {t t' : Table} {i : Name} {e : Entry}
    (h : normalizeItem (aset t i e) i = (t', none)) : tablePost t t' := by
  intro p hp
  rcases normalizeItem_post h p hp with hsum | ⟨hmem, hne⟩
  · right; left; exact hsum
  · rcases mem_aset hmem with hpv | ⟨hmem2, _⟩
    · exact absurd (by rw [hpv]) hne
    · right; right; exact hmem2

theorem addRelatedItem_post {t t' : Table} {i r : Name} {a : ℚ} {pos : Option ℚ}
    (h : addRelatedItem t i r a pos = (t', none)) : tablePost t t' := by
  unfold addRelatedItem at h
  intro p hp
  split at h
  · rcases hA : tableAdd t i [r] [1] pos with ⟨t1, e1⟩
    rw [hA] at h
    cases e1 with
    | some er => exact absurd h (by simp [mbind])
    | none =>
      simp only [mbind] at h
      rcases normalizeItem_post h p hp with hsum | ⟨hmem, hne⟩
      · right; left; exact hsum
      · rcases tableAdd_one_post hA p hmem with hnil | hsum | hmem2
        · left; exact hnil
        · right; left; exact hsum
        · right; right; exact hmem2
  · split at h
    · exact absurd h (by simp [mraise])
    · exact normalizeItem_aset_post h p hp

theorem removeRelatedItem_post {t t' : Table} {i r : Name}
    (h : removeRelatedItem t i r = (t', none)) : tablePost t t' := by
  unfold removeRelatedItem at h
  intro p hp
  split at h
  · exact absurd h (by simp [mraise])
  · next e halook =>
    split at h
    · exact absurd h (by simp [mraise])
    · next idx hidx =>
      dsimp only at h
      split at h
      · exact normalizeItem_aset_post h p hp
      · next hlen =>
        simp only [mok, Prod.mk.injEq] at h
        obtain ⟨ht', -⟩ := h
        subst ht'
        rcases mem_aset hp with hpv | ⟨hmem, _⟩
        · left
          rw [hpv]
          exact List.length_eq_zero.mp (Nat.eq_zero_of_not_pos hlen)
        · right; right; exact hmem

theorem increaseRelationshipStrength_post {t t' : Table} {i r : Name} {a : ℚ}
    {pos : Option ℚ} (h : increaseRelationshipStrength t i r a pos = (t', none)) :
    tablePost t t' := by
  unfold increaseRelationshipStrength at h
  intro p hp
  split at h
  · exact absurd h (by simp [mraise])
  · split at h
    · exact absurd h (by simp [mraise])
    · split at h
      · exact absurd h (by simp [mraise])
      · split at h
        · dsimp only at h
          split at h
          · split at h
            · exact absurd h (by simp [mraise])
            · exact normalizeItem_aset_post h p hp
          · exact normalizeItem_aset_post h p hp
        · exact absurd h (by simp [mraise])


/-- Evaluation of the two-pair fixture. -/
theorem exS2_eval : exS2 = exS2lit := by decide

theorem mbind_none_inv {σ : Type} {r : MRes σ} {f : σ → MRes σ} {s' : σ}
    (h : mbind r f = (s', none)) : ∃ s1, r = (s1, none) ∧ f s1 = (s', none) := by
  rcases r with ⟨s1, e1⟩
  cases e1 with
  | none => exact ⟨s1, rfl, h⟩
  | some er => exact absurd h (by simp [mbind])

theorem liftN2C_none_inv {s s' : System} {r : MRes Table}
    (h : liftN2C s r = (s', none)) :
    r.2 = none ∧ s' = { s with nodes_to_clusters := r.1 } := by
  unfold liftN2C at h
  simp only [Prod.mk.injEq] at h
  exact ⟨h.2, h.1.symm⟩

theorem liftC2N_none_inv {s s' : System} {r : MRes Table}
    (h : liftC2N s r = (s', none)) :
    r.2 = none ∧ s' = { s with clusters_to_nodes := r.1 } := by
  unfold liftC2N at h
  simp only [Prod.mk.injEq] at h
  exact ⟨h.2, h.1.symm⟩

theorem liftNM_none_inv {s s' : System} {r : MRes Table}
    (h : liftNM s r = (s', none)) :
    r.2 = none ∧ s' = { s with node_manager_to_nodes := r.1 } := by
  unfold liftNM at h
  simp only [Prod.mk.injEq] at h
  exact ⟨h.2, h.1.symm⟩

theorem addNode_inv {s s' : System} {n c : Name} {node : NodeState}
    {cluster : ClusterState} (h : addNode s n node c cluster = (s', none))
    (hs : normalizedInv s) : normalizedInv s' := by
  unfold addNode at h
  obtain ⟨s1, h1, h2⟩ := mbind_none_inv h
  obtain ⟨s2, h3, h4⟩ := mbind_none_inv h2
  obtain ⟨hA2, hs1⟩ := liftN2C_none_inv h1
  obtain ⟨hB2, hs2⟩ := liftC2N_none_inv h3
  obtain ⟨hC2, hs'⟩ := liftNM_none_inv h4
  subst hs1 hs2 hs'
  rcases hA : tableAdd s.nodes_to_clusters n [c] [1] none with ⟨t1, e1⟩
  rcases hB : tableAdd s.clusters_to_nodes c [n] [1] none with ⟨t2, e2⟩
  rw [hA] at hA2 h1
  rw [hB] at hB2 h3
  cases e1 with
  | some er => exact absurd hA2 (by simp)
  | none =>
    cases e2 with
    | some er => exact absurd hB2 (by simp)
    | none =>
      refine ⟨?_, ?_⟩
      · have := tableNormalized_of_post hs.1 (tableAdd_one_post hA)
        simpa using this
      · have := tableNormalized_of_post hs.2 (tableAdd_one_post hB)
        simpa using this

theorem deleteNodeLoop_inv {n : Name} :
    ∀ (cs : List Name) (s s' : System), deleteNodeLoop n s cs = (s', none) →
      normalizedInv s → normalizedInv s' := by
  intro cs
  induction cs with
  | nil =>
    intro s s' h hs
    unfold deleteNodeLoop at h
    simp only [mok, Prod.mk.injEq] at h
    rw [← h.1]
    exact hs
  | cons c rest ih =>
    intro s s' h hs
    unfold deleteNodeLoop at h
    obtain ⟨s1, h1, h2⟩ := mbind_none_inv h
    obtain ⟨hR2, hs1⟩ := liftC2N_none_inv h1
    subst hs1
    rcases hR : removeRelatedItem s.clusters_to_nodes c n with ⟨t1, e1⟩
    rw [hR] at hR2 h2
    cases e1 with
    | some er => exact absurd hR2 (by simp)
    | none =>
      exact ih _ _ h2 ⟨hs.1, tableNormalized_of_post hs.2 (removeRelatedItem_post hR)⟩

theorem deleteNode_inv {s s' : System} {n : Name}
    (h : deleteNode s n = (s', none)) (hs : normalizedInv s) : normalizedInv s' := by
  unfold deleteNode at h
  split at h
  · exact absurd h (by simp [mraise])
  · next node hnode =>
    dsimp only at h
    split at h
    · exact absurd h (by simp [mraise])
    · next e he =>
      obtain ⟨s1, h1, h2⟩ := mbind_none_inv h
      obtain ⟨hM2, hs'⟩ := liftNM_none_inv h2
      have hs1 : normalizedInv s1 :=
        deleteNodeLoop_inv _ _ _ h1 ⟨hs.1, hs.2⟩
      subst hs'
      exact ⟨tableNormalized_adel hs1.1, hs1.2⟩

theorem deleteClusterLoop_inv {c : Name} :
    ∀ (ns : List Name) (s s' : System), deleteClusterLoop c s ns = (s', none) →
      normalizedInv s → normalizedInv s' := by
  intro ns
  induction ns with
  | nil =>
    intro s s' h hs
    unfold deleteClusterLoop at h
    simp only [mok, Prod.mk.injEq] at h
    rw [← h.1]
    exact hs
  | cons n rest ih =>
    intro s s' h hs
    unfold deleteClusterLoop at h
    obtain ⟨s1, h1, h2⟩ := mbind_none_inv h
    obtain ⟨hR2, hs1⟩ := liftN2C_none_inv h1
    subst hs1
    dsimp only at h2 hR2
    obtain ⟨s2, h3, h4⟩ := mbind_none_inv h2
    obtain ⟨hQ2, hs2⟩ := liftC2N_none_inv h3
    subst hs2
    dsimp only at h4 hQ2
    obtain ⟨s3, h5, h6⟩ := mbind_none_inv h4
    rcases hR : removeRelatedItem s.nodes_to_clusters n c with ⟨t1, e1⟩
    rw [hR] at hR2 h5
    cases e1 with
    | some er => exact absurd hR2 (by simp)
    | none =>
      rcases hQ : removeRelatedItem s.clusters_to_nodes c n with ⟨t2, e2⟩
      rw [hQ] at hQ2 h5
      cases e2 with
      | some er => exact absurd hQ2 (by simp)
      | none =>
        have hs3 : normalizedInv s3 := by
          split at h5
          · exact absurd h5 (by simp [mraise])
          · split at h5
            · exact deleteNode_inv h5
                ⟨tableNormalized_of_post hs.1 (removeRelatedItem_post hR),
                 tableNormalized_of_post hs.2 (removeRelatedItem_post hQ)⟩
            · simp only [mok, Prod.mk.injEq] at h5
              rw [← h5.1]
              exact ⟨tableNormalized_of_post hs.1 (removeRelatedItem_post hR),
                     tableNormalized_of_post hs.2 (removeRelatedItem_post hQ)⟩
        exact ih _ _ h6 hs3

theorem deleteCluster_inv {s s' : System} {c : Name} {force : Bool}
    (h : deleteCluster s c force = (s', none)) (hs : normalizedInv s) :
    normalizedInv s' := by
  unfold deleteCluster at h
  obtain ⟨s1, h1, h2⟩ := mbind_none_inv h
  have hs1 : normalizedInv s1 := by
    cases force with
    | false =>
      rw [if_neg (by simp)] at h1
      simp only [mok, Prod.mk.injEq] at h1
      rw [← h1.1]
      exact hs
    | true =>
      rw [if_pos rfl] at h1
      split at h1
      · exact absurd h1 (by simp [mraise])
      · exact deleteClusterLoop_inv _ _ _ h1 hs
  split at h2
  · exact absurd h2 (by simp [mraise])
  · next e he =>
    split at h2
    · split at h2
      · exact absurd h2 (by simp [mraise])
      · next hcl =>
        dsimp only at h2
        split at h2
        · next corr hcorr =>
          simp only [mok, Prod.mk.injEq] at h2
          rw [← h2.1]
          exact ⟨hs1.1, tableNormalized_adel hs1.2⟩
        · exact absurd h2 (by simp [mraise])
    · exact absurd h2 (by simp [mraise])

theorem adjustNodeToClusterStrength_inv {s s' : System} {n c : Name} {a : ℚ}
    {pos : Option ℚ} (h : adjustNodeToClusterStrength s n c a pos = (s', none))
    (hs : normalizedInv s) : normalizedInv s' := by
  unfold adjustNodeToClusterStrength at h
  dsimp only at h
  rw [if_neg (by simp)] at h
  split at h
  · obtain ⟨s1, h1, h2⟩ := mbind_none_inv h
    obtain ⟨hA2, hs1⟩ := liftN2C_none_inv h1
    subst hs1
    obtain ⟨hB2, hs'⟩ := liftC2N_none_inv h2
    subst hs'
    rcases hA : addRelatedItem s.nodes_to_clusters n c a pos with ⟨t1, e1⟩
    rw [hA] at hA2
    cases e1 with
    | some er => exact absurd hA2 (by simp)
    | none =>
      rcases hB : addRelatedItem s.clusters_to_nodes c n a none with ⟨t2, e2⟩
      rw [hB] at hB2
      cases e2 with
      | some er => exact absurd hB2 (by simp)
      | none =>
        exact ⟨tableNormalized_of_post hs.1 (addRelatedItem_post hA),
               tableNormalized_of_post hs.2 (addRelatedItem_post hB)⟩
  · obtain ⟨hI2, hs'⟩ := liftN2C_none_inv h
    subst hs'
    rcases hI : increaseRelationshipStrength s.nodes_to_clusters n c a pos
      with ⟨t1, e1⟩
    rw [hI] at hI2
    cases e1 with
    | some er => exact absurd hI2 (by simp)
    | none =>
      exact ⟨tableNormalized_of_post hs.1 (increaseRelationshipStrength_post hI),
             hs.2⟩

theorem adjustClusterToNodeStrength_inv {s s' : System} {c n : Name} {a : ℚ}
    (h : adjustClusterToNodeStrength s c n a = (s', none))
    (hs : normalizedInv s) : normalizedInv s' := by
  unfold adjustClusterToNodeStrength at h
  obtain ⟨hI2, hs'⟩ := liftC2N_none_inv h
  subst hs'
  rcases hI : increaseRelationshipStrength s.clusters_to_nodes c n a none
    with ⟨t1, e1⟩
  rw [hI] at hI2
  cases e1 with
  | some er => exact absurd hI2 (by simp)
  | none =>
    refine ⟨hs.1, ?_⟩
    have := tableNormalized_of_post hs.2 (increaseRelationshipStrength_post hI)
    simp only [hI]
    simpa using this

/-- C1: the normalization invariant I1/P1 — every node or grouping with at
least one outgoing edge has outgoing strengths summing to 1 within the 0.01
tolerance — is preserved by every public mutating operation of the
relationship store that completes without raising (the touched rows are in
fact re-normalized to sum exactly 1). -/
theorem c1_normalization_preserved (s : System) (m : DbMutation) (s' : System)
    (hs : normalizedInv s) (h : applyMutation s m = (s', none)) :
    normalizedInv s' := by
  cases m with
  | addNodeOp n node c cluster => exact addNode_inv h hs
  | adjustN2COp n c a pos => exact adjustNodeToClusterStrength_inv h hs
  | adjustC2NOp c n a => exact adjustClusterToNodeStrength_inv h hs
  | deleteNodeOp n => exact deleteNode_inv h hs
  | deleteClusterOp c force => exact deleteCluster_inv h hs
  | removeRelN2COp i r =>
    unfold applyMutation at h
    obtain ⟨hR2, hs'⟩ := liftN2C_none_inv h
    subst hs'
    rcases hR : removeRelatedItem s.nodes_to_clusters i r with ⟨t1, e1⟩
    rw [hR] at hR2
    cases e1 with
    | some er => exact absurd hR2 (by simp)
    | none =>
      refine ⟨?_, hs.2⟩
      have := tableNormalized_of_post hs.1 (removeRelatedItem_post hR)
      simp only [hR]
      simpa using this
  | removeRelC2NOp i r =>
    unfold applyMutation at h
    obtain ⟨hR2, hs'⟩ := liftC2N_none_inv h
    subst hs'
    rcases hR : removeRelatedItem s.clusters_to_nodes i r with ⟨t1, e1⟩
    rw [hR] at hR2
    cases e1 with
    | some er => exact absurd hR2 (by simp)
    | none =>
      refine ⟨hs.1, ?_⟩
      have := tableNormalized_of_post hs.2 (removeRelatedItem_post hR)
      simp only [hR]
      simpa using this

/-- C1 witness: a strengthening mutation on the concrete two-pair store. -/
theorem c1_witness :
    normalizedInv exS2 ∧
    applyMutation exS2 (DbMutation.adjustN2COp "nA" "cB" 1 (some 2))
      = ((applyMutation exS2 (DbMutation.adjustN2COp "nA" "cB" 1 (some 2))).1, none) ∧
    normalizedInv (applyMutation exS2 (DbMutation.adjustN2COp "nA" "cB" 1 (some 2))).1 :=
  ⟨by decide, by decide,
    c1_normalization_preserved exS2 (DbMutation.adjustN2COp "nA" "cB" 1 (some 2))
      (applyMutation exS2 (DbMutation.adjustN2COp "nA" "cB" 1 (some 2))).1
      (by decide) (by decide)⟩

/-- C4: for every pair of events originating from the same stream (same
cortex), at the same timestep or otherwise, `_update_connection` is a no-op:
the whole state — in particular every ClusterCorrelation weight, age and
reference list — is returned unchanged and no error is raised. -/
theorem c4_update_connection_same_stream_noop (s : System) (g : List ℚ)
    (old_packet new_packet : DataPacket)
    (h : new_packet.cortex = old_packet.cortex) :
    updateConnection s g old_packet new_packet = mok s := by
  unfold updateConnection
  simp [h]

/-- C4 witness: a concrete same-stream pair (two cortex-"A" packets). -/
theorem c4_witness :
    exQA.cortex = exQA1.cortex ∧
    updateConnection exS2 degenerateGaussian exQA1 exQA = mok exS2 :=
  ⟨rfl, c4_update_connection_same_stream_noop exS2 degenerateGaussian exQA1 exQA rfl⟩

/-- C6: adding a relation that already exists fails with the
duplicate-relation error and leaves the table completely unchanged (the
raise happens before any list, strength, position or count is touched). -/
theorem c6_duplicate_relation_rejected (t : Table) (item related : Name)
    (strength : ℚ) (pos : Option ℚ) (h : isRelated t item related = true) :
    addRelatedItem t item related strength pos = (t, some Err.alreadyRelated) := by
  unfold isRelated at h
  unfold addRelatedItem
  cases halook : alook t item with
  | none => rw [halook] at h; simp at h
  | some e =>
    rw [halook] at h
    have hmem : related ∈ e.list := by simpa using h
    simp [hmem, mraise]

/-- C6 witness: the duplicate `nA`–`cA` relation in the concrete store. -/
theorem c6_witness :
    isRelated exS2.nodes_to_clusters "nA" "cA" = true ∧
    addRelatedItem exS2.nodes_to_clusters "nA" "cA" (1/2) none
      = (exS2.nodes_to_clusters, some Err.alreadyRelated) :=
  ⟨by decide, c6_duplicate_relation_rejected exS2.nodes_to_clusters "nA" "cA" (1/2) none
    (by decide)⟩

/-- C7 counterexample: the claim says every zero-or-negative-sum
normalization attempt raises, including in a ClusterCorrelation record, and
that normalization never silently returns the input unchanged; but
`ClusterCorrelation._normalize` on a zero-sum record silently returns the
connections unchanged (no exception — the function is total). -/
theorem c7_counterexample : corrNormalize [("a", 0)] = [("a", 0)] := by decide

/-- C7 as amended: the relationship store's `_normalize` raises on any
zero-or-negative total, while `ClusterCorrelation._normalize` silently
returns the connections unchanged whenever their sum is not positive. -/
theorem c7_degenerate_normalization (l : List ℚ) (c : List (Name × ℚ))
    (hl : l.sum ≤ 0) (hc : (c.map Prod.snd).sum ≤ 0) :
    normalizeVals l = Except.error Err.normalizeNonpositive ∧ corrNormalize c = c := by
  constructor
  · unfold normalizeVals
    simp [hl]
  · unfold corrNormalize
    simp [not_lt.mpr hc]

/-- C7 witness: a zero-sum strengths list and a negative-sum connections
record. -/
theorem c7_witness :
    ([(0 : ℚ)].sum ≤ 0) ∧ (([(("a" : Name), (-1 : ℚ))].map Prod.snd).sum ≤ 0) ∧
    (normalizeVals [(0 : ℚ)] = Except.error Err.normalizeNonpositive ∧
      corrNormalize [("a", -1)] = [("a", -1)]) :=
  ⟨by decide, by decide, c7_degenerate_normalization [0] [("a", -1)] (by decide) (by decide)⟩

/-- C9: with two same-stream events at the same timestep under `learn`, the
feedback branch of `receive_packet` is reached without the different-stream
guard: `_send_feedback_packet` looks up the queued packet's cluster in the
correlation map and, it having no record, raises an unhandled KeyError (the
packet is not even enqueued). -/
theorem c9_same_stream_feedback_keyerror :
    receivePacket exS2Q degenerateGaussian exQA true = (exS2Q, some Err.keyError) ∧
    alook exS2Q.correlations exQA.cluster = none ∧
    exQA.cortex = exQA.cortex ∧ exQA.time = exQA.time := by decide

/-- C3: force-deleting cluster `cA`, which is edged to the three nodes `nA`,
`n2`, `n3` (with `cA` the only cluster edge of `nA`): the deletion succeeds,
`cA` disappears from the identity and edge tables, `nA` is deleted outright,
and `n2`, `n3` survive with their cluster-edge sets shrunk from two edges to
exactly one. -/
theorem c3_cascade_deletion :
    casDel.2 = none ∧
    (alook casS5.clusters_to_nodes "cA").map (fun e => e.list) = some ["nA", "n2", "n3"] ∧
    (alook casS5.nodes_to_clusters "nA").map (fun e => e.list) = some ["cA"] ∧
    (alook casS5.nodes_to_clusters "n2").map (fun e => e.list.length) = some 2 ∧
    (alook casS5.nodes_to_clusters "n3").map (fun e => e.list.length) = some 2 ∧
    alook casDel.1.clusters "cA" = none ∧
    alook casDel.1.clusters_to_nodes "cA" = none ∧
    alook casDel.1.nodes "nA" = none ∧
    alook casDel.1.nodes_to_clusters "nA" = none ∧
    (alook casDel.1.nodes "n2").isSome = true ∧
    (alook casDel.1.nodes "n3").isSome = true ∧
    (alook casDel.1.nodes_to_clusters "n2").map (fun e => e.list) = some ["c2"] ∧
    (alook casDel.1.nodes_to_clusters "n3").map (fun e => e.list) = some ["c3"] := by
  decide

/-- C5 counterexample: a node constructed with `feedbackCount = 0` and no
`lastUtilized`, after `NODE_IS_NEW + 1 = 26` feedback packets (and nothing
else), still has `isNew() = true` — `receive_feedback_packet` never sets
`last_utilized`, and `is_new` returns true whenever `last_utilized` is
unset. The claim asserts `isNew() = false` here. -/
theorem c5_counterexample :
    c5After26.2 = none ∧
    (alook c5After26.1.nodes "nA").map nodeIsNew = some true := by decide

/-- C5 as amended: a fresh node (`feedbackCount = 0`, no `lastUtilized`) has
`isNew() = true`; after `NODE_IS_NEW + 1` feedback packets alone it STILL has
`isNew() = true` (feedback never sets `lastUtilized`); `isNew()` becomes
false only once `lastUtilized` is also set (e.g. by one `learn` call) while
the feedback count exceeds the threshold. -/
theorem c5_is_new_after_feedback :
    (alook exS2.nodes "nA").map nodeIsNew = some true ∧
    c5After26.2 = none ∧
    (alook c5After26.1.nodes "nA").map nodeIsNew = some true ∧
    (alook c5After26.1.nodes "nA").map (fun n => nodeIsNew (nodeLearn n 0 6))
      = some false := by decide

/-- C2 counterexample: with the non-degenerate (everywhere-positive,
bell-shaped) kernel configured, a queued event from a different stream at
time T−(W−1) produces NO correlation update — `receive_packet` only
correlates queued packets at exactly the same timestep — while the claim
asserts an update occurs. -/
theorem c2_counterexample :
    (receivePacket exS2Q1 gBell exPB10 true).2 = none ∧
    (receivePacket exS2Q1 gBell exPB10 true).1.correlations = exS2Q1.correlations ∧
    exS2Q1.correlations = [] ∧
    (exPB10.time : ℤ) - (exQA1.time : ℤ) = (CE_CORRELATION_WINDOW_MAX : ℤ) - 1 ∧
    exPB10.cortex ≠ exQA1.cortex ∧
    (∀ w ∈ gBell, 0 < w) := by decide

/-- C2 as amended: an event at time T with a single queued event at ANY
other timestep (T−W and T−(W−1) included, whatever the kernel) produces no
correlation update — the state is returned with only the packet queue
changed; an update does occur for a queued event from a different stream at
exactly the same timestep, also under the non-degenerate kernel. -/
theorem c2_temporal_cutoff (s : System) (g : List ℚ) (p q : DataPacket)
    (hq : s.packet_queue = [q]) (hne : p.time ≠ q.time) :
    receivePacket s g p true
      = ({ s with packet_queue := (p :: [q]).take (g.length + 1) }, none) ∧
    (receivePacket exS2Q gBell exPB true).2 = none ∧
    (receivePacket exS2Q gBell exPB true).1.correlations ≠ exS2Q.correlations := by
  refine ⟨?_, by decide, by decide⟩
  unfold receivePacket
  rw [hq]
  unfold scanQueue
  rcases le_or_lt ((CE_CORRELATION_WINDOW_MAX : ℕ) : ℤ) ((p.time : ℤ) - (q.time : ℤ))
    with hw | hw
  · rw [if_pos hw]
    simp [mbind, mok, hq]
  · rw [if_neg (not_le.mpr hw), if_neg (by simp [hne])]
    unfold scanQueue
    simp [mbind, mok, hq]

/-- C2 witness: the T−(W−1) pair under the bell kernel. -/
theorem c2_witness :
    exS2Q1.packet_queue = [exQA1] ∧ exPB10.time ≠ exQA1.time ∧
    (receivePacket exS2Q1 gBell exPB10 true
      = ({ exS2Q1 with packet_queue := (exPB10 :: [exQA1]).take (gBell.length + 1) },
         none) ∧
     (receivePacket exS2Q gBell exPB true).2 = none ∧
     (receivePacket exS2Q gBell exPB true).1.correlations ≠ exS2Q.correlations) :=
  ⟨rfl, by decide, c2_temporal_cutoff exS2Q1 gBell exPB10 exQA1 rfl (by decide)⟩

theorem c8_helper_step1 (p1 : ℚ) :
    adjustNodeToClusterStrength exS2lit "nA" "cB" 1 (some p1) = (c8S1 p1, none) := by
  simp [c8S1, exS2lit, tableAdd, addRelatedItem, normalizeItem,
    normalizeVals, isRelated, increaseRelationshipStrength, adjustNodeToClusterStrength,
    liftN2C, liftC2N, liftNM, alook, aset, bset, mbind, mok, mraise]
  norm_num
  simp [normalizeItem, normalizeVals, alook, aset, mbind, mok, mraise]
  norm_num

theorem c8_helper_step2 (p1 p2 : ℚ) :
    adjustNodeToClusterStrength (c8S1 p1) "nA" "cB" 1 (some p2) = (c8S2 p1 p2, none) := by
  simp [c8S1, c8S2, exS2lit, tableAdd, addRelatedItem, normalizeItem,
    normalizeVals, isRelated, increaseRelationshipStrength, adjustNodeToClusterStrength,
    liftN2C, liftC2N, liftNM, alook, aset, bset, mbind, mok, mraise]
  norm_num

theorem c8_helper_step3 (p1 p2 p3 : ℚ) :
    adjustNodeToClusterStrength (c8S2 p1 p2) "nA" "cB" 1 (some p3)
      = (c8S3 p1 p2 p3, none) := by
  simp [c8S2, c8S3, exS2lit, tableAdd, addRelatedItem, normalizeItem,
    normalizeVals, isRelated, increaseRelationshipStrength, adjustNodeToClusterStrength,
    liftN2C, liftC2N, liftNM, alook, aset, bset, mbind, mok, mraise]
  norm_num

/-- C8: after a first `adjust_node_to_cluster_strength` call creating the
`nA`–`cB` edge with position p1 and two further calls with positions p2 and
p3, the calls succeed, the observation count is 3, and the stored position is
exactly the arithmetic mean (p1+p2+p3)/3 — each update applies
`pos += (newPos − pos) / count` with the count incremented first. -/
theorem c8_running_mean (p1 p2 p3 : ℚ) :
    (c8Step p1 p2 p3).2 = none ∧
    ((alook (c8Step p1 p2 p3).1.nodes_to_clusters "nA").map
      (fun e => e.count.getD 1 0)) = some 3 ∧
    ((alook (c8Step p1 p2 p3).1.nodes_to_clusters "nA").map
      (fun e => e.position.getD 1 none)) = some (some ((p1 + p2 + p3) / 3)) := by
  have h1 := c8_helper_step1 p1
  have h2 := c8_helper_step2 p1 p2
  have h3 := c8_helper_step3 p1 p2 p3
  simp only [c8Step, exS2_eval, h1, mbind, h2, h3]
  simp [c8S3, alook]
  ring_nf

/-! ### Helper lemmas for the non-learning frame property (C10) -/

theorem alook_aset {β : Type} (l : List (Name × β)) (n : Name) (v : β) :
    alook (aset l n v) n = (alook l n).map (fun _ => v) := by
  induction l with
  | nil => rfl
  | cons q rest ih =>
    rcases q with ⟨k, w⟩
    unfold aset at ih ⊢
    by_cases hk : k = n
    · subst hk
      have hhead : (if (k, w).1 = k then (k, v) else (k, w)) = (k, v) := if_pos rfl
      simp only [List.map_cons, hhead, eq_self_iff_true, if_true]
      have h1 : alook ((k, v) :: List.map (fun q => if q.1 = k then (k, v) else q) rest) k
          = some v := by
        unfold alook
        exact if_pos rfl
      have h2 : alook ((k, w) :: rest) k = some w := by
        unfold alook
        exact if_pos rfl
      rw [h1, h2]
      rfl
    · simp only [List.map_cons]
      rw [if_neg hk]
      unfold alook
      rw [if_neg hk, if_neg hk]
      exact ih

theorem alook_aset_ne {β : Type} (l : List (Name × β)) (k nm : Name) (v : β)
    (h : nm ≠ k) : alook (aset l k v) nm = alook l nm := by
  induction l with
  | nil => rfl
  | cons q rest ih =>
    rcases q with ⟨k', w⟩
    unfold aset at ih ⊢
    simp only [List.map_cons]
    by_cases hk : k' = k
    · have hhead : (if (k', w).1 = k then (k, v) else (k', w)) = (k, v) := if_pos hk
      rw [hhead]
      unfold alook
      rw [if_neg (fun he => h he.symm), if_neg (fun he => h (he.symm.trans hk))]
      exact ih
    · have hhead : (if (k', w).1 = k then (k, v) else (k', w)) = (k', w) := if_neg hk
      rw [hhead]
      unfold alook
      by_cases hk2 : k' = nm
      · rw [if_pos hk2, if_pos hk2]
      · rw [if_neg hk2, if_neg hk2]
        exact ih

/-- With `learn = false` the queue scan of `receive_packet` does nothing at
all: no correlation update, no feedback. -/
theorem scanQueue_no_learn (g : List ℚ) (p : DataPacket) (s : System) :
    ∀ queue, scanQueue g p false s queue = (s, none) := by
  intro queue
  induction queue with
  | nil => rfl
  | cons q rest ih =>
    unfold scanQueue
    split
    · rfl
    · rw [if_neg (by simp)]
      exact ih

/-- With `learn = false`, `receive_packet` only rotates the bounded packet
queue. -/
theorem receivePacket_no_learn (s : System) (g : List ℚ) (p : DataPacket) :
    receivePacket s g p false
      = ({ s with packet_queue := (p :: s.packet_queue).take (g.length + 1) }, none) := by
  unfold receivePacket
  rw [scanQueue_no_learn]
  rfl

/-- With `learn = false`, `excite_cdz` leaves both edge tables, the
correlation map, the membership table, the node states, the manager states
and the timestep unchanged, and touches the excited cluster only in its
`last_fired` timestamp. -/
theorem clusterExciteCdz_no_learn {s s' : System} {g : List ℚ} {cl src : Name}
    {strength : ℚ} (h : clusterExciteCdz s g cl strength src false = (s', none)) :
    s'.nodes_to_clusters = s.nodes_to_clusters ∧
    s'.clusters_to_nodes = s.clusters_to_nodes ∧
    s'.correlations = s.correlations ∧
    s'.node_manager_to_nodes = s.node_manager_to_nodes ∧
    s'.nodes = s.nodes ∧
    s'.managers = s.managers ∧
    s'.timestep = s.timestep ∧
    ∀ nm, (alook s'.clusters nm).map clusterFrame
      = (alook s.clusters nm).map clusterFrame := by
  unfold clusterExciteCdz at h
  split at h
  · exact absurd h (by simp [mraise])
  · next cl2 hcl =>
    dsimp only at h
    rw [if_neg (by simp)] at h
    rw [receivePacket_no_learn] at h
    simp only [Prod.mk.injEq] at h
    rw [← h.1]
    refine ⟨rfl, rfl, rfl, rfl, rfl, rfl, rfl, ?_⟩
    intro nm
    dsimp only
    by_cases hnm : nm = cl
    · subst hnm
      rw [alook_aset, hcl]
      rfl
    · rw [alook_aset_ne _ _ _ _ hnm]

/-- With the bootstrap finished, `_add_initial_nodes` changes nothing at
all: the only write it can still perform re-sets the already-true
`finished_initial` flag to its current value, so even every manager lookup
is unchanged. -/
theorem addInitialNodes_finished {s s' : System} {cn : Name} {enc : ℚ}
    (hm : (alook s.managers cn).map ManagerState.finished_initial = some true)
    (h : addInitialNodes s cn enc = (s', none)) :
    s'.nodes_to_clusters = s.nodes_to_clusters ∧
    s'.clusters_to_nodes = s.clusters_to_nodes ∧
    s'.correlations = s.correlations ∧
    s'.node_manager_to_nodes = s.node_manager_to_nodes ∧
    s'.nodes = s.nodes ∧ s'.clusters = s.clusters ∧
    s'.packet_queue = s.packet_queue ∧
    s'.timestep = s.timestep ∧
    ∀ nm, alook s'.managers nm = alook s.managers nm := by
  unfold addInitialNodes at h
  split at h
  · exact absurd h (by simp [mraise])
  · next m hm2 =>
    split at h
    · exact absurd h (by simp [mraise])
    · next e he =>
      have hfin : m.finished_initial = true := by
        rw [hm2] at hm
        simpa using hm
      rw [if_neg (by simp [hfin])] at h
      obtain ⟨s1, h1, h2⟩ := mbind_none_inv h
      simp only [mok, Prod.mk.injEq] at h1
      obtain ⟨hs1, -⟩ := h1
      subst hs1
      split at h2
      · next m2 e2 hm4 he4 =>
        split at h2
        · simp only [mok, Prod.mk.injEq] at h2
          rw [← h2.1]
          have hm24 : m2 = m := by
            rw [hm4] at hm2
            exact Option.some.inj hm2
          have hmid : ({ m2 with finished_initial := true } : ManagerState) = m2 := by
            have hfin2 : m2.finished_initial = true := by rw [hm24]; exact hfin
            cases m2
            simp_all
          refine ⟨rfl, rfl, rfl, rfl, rfl, rfl, rfl, rfl, ?_⟩
          intro nm
          dsimp only
          rw [hmid]
          by_cases hnm : nm = cn
          · subst hnm
            rw [alook_aset, hm4]
            rfl
          · rw [alook_aset_ne _ _ _ _ hnm]
        · simp only [mok, Prod.mk.injEq] at h2
          rw [← h2.1]
          exact ⟨rfl, rfl, rfl, rfl, rfl, rfl, rfl, rfl, fun _ => rfl⟩
      · exact absurd h2 (by simp [mraise])

/-- C10: a `receive_encoding` call with `learn = false` on a stream whose
bootstrap is finished leaves every relationship strength in both edge tables,
the membership table and every ClusterCorrelation record unchanged, and —
the full frame — every node is unchanged except possibly its
`last_encoding`, every cluster except possibly its `last_fired`, every
manager except possibly its `last_fired_node`, and the timestep is
untouched; so only non-weight state (those three fields and the packet
queue) may change. -/
theorem c10_no_learn_frame (s s' : System) (g : List ℚ) (cn : Name) (enc : ℚ)
    (hm : (alook s.managers cn).map ManagerState.finished_initial = some true)
    (h : receiveEncoding s g cn enc false = (s', none)) :
    s'.nodes_to_clusters = s.nodes_to_clusters ∧
    s'.clusters_to_nodes = s.clusters_to_nodes ∧
    s'.correlations = s.correlations ∧
    s'.node_manager_to_nodes = s.node_manager_to_nodes ∧
    (∀ nm, (alook s'.nodes nm).map nodeFrame = (alook s.nodes nm).map nodeFrame) ∧
    (∀ nm, (alook s'.clusters nm).map clusterFrame
      = (alook s.clusters nm).map clusterFrame) ∧
    (∀ nm, (alook s'.managers nm).map managerFrame
      = (alook s.managers nm).map managerFrame) ∧
    s'.timestep = s.timestep := by
  unfold receiveEncoding at h
  obtain ⟨s1, h1, h2⟩ := mbind_none_inv h
  obtain ⟨hA1, hA2, hA3, hA4, hA5, hA6, hA7, hA8, hA9⟩ :=
    addInitialNodes_finished hm h1
  split at h2
  · exact absurd h2 (by simp [mraise])
  · next nearest distance hfind =>
    split at h2
    · exact absurd h2 (by simp [mraise])
    · next node hnode =>
      try dsimp only at h2
      split at h2
      · exact absurd h2 (by simp [mraise])
      · split at h2
        · exact absurd h2 (by simp [mraise])
        · next m hm3 =>
          try dsimp only at h2
          obtain ⟨s3, h5, h6⟩ := mbind_none_inv h2
          rw [if_neg (by simp)] at h5
          simp only [mok, Prod.mk.injEq] at h5
          obtain ⟨hs3, -⟩ := h5
          subst hs3
          obtain ⟨hE1, hE2, hE3, hE4, hE5, hE6, hE7, hE8⟩ :=
            clusterExciteCdz_no_learn h6
          refine ⟨hE1.trans hA1, hE2.trans hA2, hE3.trans hA3, hE4.trans hA4,
                  ?_, ?_, ?_, hE7.trans hA8⟩
          · intro nm
            rw [hE5]
            dsimp only
            rw [hA5] at hnode ⊢
            by_cases hnm : nm = nearest
            · subst hnm
              rw [alook_aset, hnode]
              rfl
            · rw [alook_aset_ne _ _ _ _ hnm]
          · intro nm
            have hc := hE8 nm
            dsimp only at hc
            rw [hA6] at hc
            exact hc
          · intro nm
            rw [hE6]
            dsimp only
            try dsimp only at hm3
            by_cases hnm : nm = cn
            · subst hnm
              rw [alook_aset, hm3, ← hA9 nm, hm3]
              rfl
            · rw [alook_aset_ne _ _ _ _ hnm, hA9 nm]

/-- C10 witness: a non-learning inference call on the concrete bootstrapped
two-pair system. -/
theorem c10_witness :
    ((alook exS2.managers "A").map ManagerState.finished_initial = some true) ∧
    receiveEncoding exS2 degenerateGaussian "A" 7 false
      = ((receiveEncoding exS2 degenerateGaussian "A" 7 false).1, none) ∧
    ((receiveEncoding exS2 degenerateGaussian "A" 7 false).1.nodes_to_clusters
        = exS2.nodes_to_clusters ∧
     (receiveEncoding exS2 degenerateGaussian "A" 7 false).1.clusters_to_nodes
        = exS2.clusters_to_nodes ∧
     (receiveEncoding exS2 degenerateGaussian "A" 7 false).1.correlations
        = exS2.correlations ∧
     (receiveEncoding exS2 degenerateGaussian "A" 7 false).1.node_manager_to_nodes
        = exS2.node_manager_to_nodes ∧
     (∀ nm, (alook (receiveEncoding exS2 degenerateGaussian "A" 7 false).1.nodes nm).map
          nodeFrame
        = (alook exS2.nodes nm).map nodeFrame) ∧
     (∀ nm, (alook (receiveEncoding exS2 degenerateGaussian "A" 7 false).1.clusters nm).map
          clusterFrame
        = (alook exS2.clusters nm).map clusterFrame) ∧
     (∀ nm, (alook (receiveEncoding exS2 degenerateGaussian "A" 7 false).1.managers nm).map
          managerFrame
        = (alook exS2.managers nm).map managerFrame) ∧
     (receiveEncoding exS2 degenerateGaussian "A" 7 false).1.timestep
        = exS2.timestep) :=
  ⟨by decide, by decide,
    c10_no_learn_frame exS2 (receiveEncoding exS2 degenerateGaussian "A" 7 false).1
      degenerateGaussian "A" 7 (by decide) (by decide)⟩

end Cdzp
